import Mathlib

/-!
Verification development for the multi-carrier-tracker repository.

The repository consists of four near-duplicate Express servers
(`src/server.js`, `src/app.js` — which contains a second embedded server
exposing `GET /track/:carrier` — and the two unnamed sources
`src/unnamed/part_000`, `src/unnamed/part_001`).  This file gives a shallow
embedding of the pure logic of those servers: the carrier-URL resolver
`officialLink` (all variants), the status/ETA extraction heuristics, the
text sanitizer, the in-memory TTL result cache, and the request handlers as
pure functions from their inputs (request parameters, the administrative
scrape toggle, and the outcome of the external page fetch) to a response
value.

Strings are modelled as `List Char`; JavaScript `toLowerCase` is modelled on
the ASCII and Latin-1 letter ranges (carrier ids and all keyword patterns in
the source are drawn from these ranges), `undefined`/`null` parameters are
modelled as `Option` with `none`, and a thrown JavaScript exception is
modelled as the `Except.error` branch of an `Except` result.
-/

/-- ASCII/Latin-1 lower-casing on code points: `A`–`Z` and the Latin-1
uppercase block `À`–`Þ` (except `×`) map 32 code points up, as JavaScript
`toLowerCase` does on these ranges.  (Carrier ids and all keyword patterns
appearing in the source are within these ranges.) -/
def lowerCp (n : Nat) : Nat :=
  if (65 ≤ n ∧ n ≤ 90) ∨ (192 ≤ n ∧ n ≤ 222 ∧ n ≠ 215) then n + 32 else n

/-- Lower-case a character (model of JS `toLowerCase` per code point). -/
def lowerChar (c : Char) : Char := Char.ofNat (lowerCp c.toNat)

/-- Lower-case a character list. -/
def lowerL (l : List Char) : List Char := l.map lowerChar

/-- Lower-case a `String` (model of JS `String.prototype.toLowerCase`). -/
def lowerS (s : String) : String := String.mk (lowerL s.toList)

/-- JavaScript whitespace (the set matched by `\s` and removed by
`String.prototype.trim`): tab, LF, VT, FF, CR, space, NBSP, and the Unicode
space separators and BOM. -/
def isJsWhitespace (c : Char) : Bool :=
  c.toNat ∈ [9, 10, 11, 12, 13, 32, 160, 0x1680, 0x2000, 0x2001, 0x2002,
    0x2003, 0x2004, 0x2005, 0x2006, 0x2007, 0x2008, 0x2009, 0x200A,
    0x2028, 0x2029, 0x202F, 0x205F, 0x3000, 0xFEFF]

/-- Drop JS whitespace from the front (start of JS `trim`). -/
def jsTrimLeft (l : List Char) : List Char := l.dropWhile isJsWhitespace

/-- Drop JS whitespace from the back (end of JS `trim`). -/
def jsTrimRight (l : List Char) : List Char :=
  (l.reverse.dropWhile isJsWhitespace).reverse

/-- Model of JS `String.prototype.trim` on character lists. -/
def jsTrim (l : List Char) : List Char := jsTrimRight (jsTrimLeft l)

/-- Model of JS `trim` on `String`s. -/
def jsTrimS (s : String) : String := String.mk (jsTrim s.toList)

/-- The characters `encodeURIComponent` leaves unescaped:
`A-Z a-z 0-9 - _ . ! ~ * ' ( )`. -/
def uriUnreserved (c : Char) : Bool :=
  (65 ≤ c.toNat ∧ c.toNat ≤ 90) ∨ (97 ≤ c.toNat ∧ c.toNat ≤ 122) ∨
  (48 ≤ c.toNat ∧ c.toNat ≤ 57) ∨
  c = '-' ∨ c = '_' ∨ c = '.' ∨ c = '!' ∨ c = '~' ∨ c = '*' ∨
  c = Char.ofNat 39 ∨ c = '(' ∨ c = ')'

/-- UTF-8 byte sequence of a code point. -/
def utf8Bytes (n : Nat) : List Nat :=
  if n < 0x80 then [n]
  else if n < 0x800 then [0xC0 + n / 64, 0x80 + n % 64]
  else if n < 0x10000 then
    [0xE0 + n / 4096, 0x80 + (n / 64) % 64, 0x80 + n % 64]
  else
    [0xF0 + n / 262144, 0x80 + (n / 4096) % 64, 0x80 + (n / 64) % 64,
      0x80 + n % 64]

/-- Uppercase hexadecimal digit for a value below 16. -/
def hexUpper (n : Nat) : Char :=
  if n < 10 then Char.ofNat (48 + n) else Char.ofNat (55 + n)

/-- Model of JS `encodeURIComponent`: unreserved characters pass through,
every other character is percent-encoded byte-by-byte (UTF-8, uppercase
hex). -/
def encodeURIComponent (l : List Char) : List Char :=
  l.flatMap fun c =>
    if uriUnreserved c then [c]
    else (utf8Bytes c.toNat).flatMap fun b =>
      ['%', hexUpper (b / 16), hexUpper (b % 16)]

/-- The URL templates shared by every server variant
(`src/server.js:24-44`, `src/unnamed/part_000:22-44`,
`src/unnamed/part_001:25-43`, `src/app.js:26-43`). -/
def dhlUrl (code : List Char) : List Char :=
  "https://www.dhl.com/mx-es/home/rastreo.html?tracking-id=".toList ++
    encodeURIComponent code

/-- FedEx tracking URL template. -/
def fedexUrl (code : List Char) : List Char :=
  "https://www.fedex.com/fedextrack/?trknbr=".toList ++
    encodeURIComponent code ++ "&cntry_code=mx_esp".toList

/-- UPS tracking URL template. -/
def upsUrl (code : List Char) : List Char :=
  "https://www.ups.com/track?loc=es_MX&tracknum=".toList ++
    encodeURIComponent code ++ "&requester=ST/".toList

/-- Delta Cargo tracking URL template. -/
def deltaUrl (code : List Char) : List Char :=
  "https://www.deltacargo.com/Cargo/trackShipment?airbillnumber=".toList ++
    encodeURIComponent code

/-- Expeditors tracking landing page (static: the code is not embedded). -/
def expeditorsUrl : List Char := "https://www.expeditors.com/tracking".toList

/-- The `switch` of `officialLink` in `src/server.js:26-43` (identical in
`src/unnamed/part_000:24-43` and `src/unnamed/part_001:27-42`), applied to
the already lower-cased carrier id.  Recognizes the Delta Cargo aliases
`delta`, `delta-cargo`, and `deltacargo`. -/
def officialLinkSwitch (c : List Char) (code : List Char) : Option (List Char) :=
  if c = "dhl".toList then some (dhlUrl code)
  else if c = "fedex".toList then some (fedexUrl code)
  else if c = "ups".toList then some (upsUrl code)
  else if c = "delta".toList ∨ c = "delta-cargo".toList ∨
      c = "deltacargo".toList then some (deltaUrl code)
  else if c = "expeditors".toList then some expeditorsUrl
  else none

/-- The `switch` of `officialLink` in `src/app.js:28-42`: identical to
`officialLinkSwitch` except that its Delta Cargo branch only lists the
aliases `delta` and `delta-cargo` (no `deltacargo` case label). -/
def officialLinkSwitchApp (c : List Char) (code : List Char) : Option (List Char) :=
  if c = "dhl".toList then some (dhlUrl code)
  else if c = "fedex".toList then some (fedexUrl code)
  else if c = "ups".toList then some (upsUrl code)
  else if c = "delta".toList ∨ c = "delta-cargo".toList then
    some (deltaUrl code)
  else if c = "expeditors".toList then some expeditorsUrl
  else none

/-- `officialLink` of `src/server.js:24-44` (and `src/unnamed/part_001`):
`const c = (carrier || "").toLowerCase(); switch (c) {...}`.  The
`carrier || ""` guard makes the function total: `none` models an absent
(`undefined`/`null`) carrier. -/
def officialLink (carrier : Option String) (code : String) : Option String :=
  (officialLinkSwitch (lowerL (carrier.getD "").toList) code.toList).map
    String.mk

/-- `officialLink` of `src/app.js:26-43`: same guard, but the `app.js`
switch without the `deltacargo` alias. -/
def officialLinkApp (carrier : Option String) (code : String) : Option String :=
  (officialLinkSwitchApp (lowerL (carrier.getD "").toList) code.toList).map
    String.mk

/-- A JS method call `v.toLowerCase()` on a possibly-absent receiver:
calling on `undefined`/`null` throws a `TypeError`, modelled as
`Except.error ()`. -/
def jsToLowerCaseCall (v : Option String) : Except Unit (List Char) :=
  match v with
  | none => Except.error ()
  | some s => Except.ok (lowerL s.toList)

/-- `officialLink` of `src/unnamed/part_000:22-44`:
`const c = carrier.toLowerCase();` with no guard, so an absent carrier
makes the function throw a `TypeError` before reaching the `switch`. -/
def officialLinkP0 (carrier : Option String) (code : String) :
    Except Unit (Option String) :=
  (jsToLowerCaseCall carrier).map fun c =>
    (officialLinkSwitch c code.toList).map String.mk

/-- The guarded form `(carrier || "").toLowerCase()` of `src/server.js:25`
run through the same method-call semantics, to state totality of the
guarded variant on the same error model as `officialLinkP0`. -/
def officialLinkGuardedE (carrier : Option String) (code : String) :
    Except Unit (Option String) :=
  (jsToLowerCaseCall (some (carrier.getD ""))).map fun c =>
    (officialLinkSwitch c code.toList).map String.mk

/-- Boolean test: `p` is a prefix of `l`. -/
def prefixB : List Char → List Char → Bool
  | [], _ => true
  | _ :: _, [] => false
  | a :: as, b :: bs => a = b && prefixB as bs

/-- Boolean test: `p` occurs as a contiguous sublist of `l`. -/
def infixB (pat : List Char) : List Char → Bool
  | [] => pat.isEmpty
  | l@(_ :: rest) => prefixB pat l || infixB pat rest

/-- The fixed keyword list of `extractStatus` in `src/app.js:212-215`
(the embedded cache server), in source order. -/
def statuses : List String :=
  ["Delivered", "Out for delivery", "In Transit", "In transit", "Shipped",
   "Shipment information received", "Entregado", "En reparto",
   "En tránsito", "En transito", "En Camino", "Recibido", "Despachado",
   "En camino"]

/-- `new RegExp(status, 'i').test(text)` for the plain keyword patterns of
`extractStatus`: a case-insensitive substring test. -/
def ciTest (pat : String) (text : List Char) : Bool :=
  infixB (lowerL pat.toList) (lowerL text)

/-- `extractStatus` of `src/app.js:211-221`: returns the first keyword of
the fixed list that occurs (case-insensitively) in the text — the list
element itself, in its canonical casing — or `none`. -/
def extractStatus (text : List Char) : Option String :=
  statuses.find? fun s => ciTest s text

/-- The carrier scrapers' use of `extractStatus(bodyText) || 'Unknown'`
(`src/app.js:262` and analogues): a missing status becomes the string
`"Unknown"`. -/
def latestStatus (text : List Char) : String :=
  (extractStatus text).getD "Unknown"

/-- Worker for `replace(/\s+/g, " ")`: `inRun` records whether the
previous character belonged to a whitespace run already replaced. -/
def collapseAllWSAux (inRun : Bool) : List Char → List Char
  | [] => []
  | c :: rest =>
    if isJsWhitespace c then
      if inRun then collapseAllWSAux true rest
      else ' ' :: collapseAllWSAux true rest
    else c :: collapseAllWSAux false rest

/-- `text.replace(/\s+/g, " ")`: every maximal run of JS whitespace becomes
a single space (`src/unnamed/part_000:48`). -/
def collapseAllWS (l : List Char) : List Char := collapseAllWSAux false l

/-- The `statusCandidates` patterns of `src/unnamed/part_000:51-63`, in
source order (each is a plain case-insensitive phrase). -/
def statusCandidatesP0 : List String :=
  ["entregado", "en tránsito", "en camino", "recogido",
   "listo para entrega", "demorado", "delivered", "out for delivery",
   "in transit", "picked up", "delayed"]

/-- Leftmost case-insensitive occurrence of a plain phrase in the text,
returned as the span of the text itself (JS `text.match(re)[0]` for a
literal case-insensitive pattern). -/
def firstCIMatch (pat : List Char) : List Char → Option (List Char)
  | [] => if pat.isEmpty then some [] else none
  | l@(_ :: rest) =>
    if prefixB (lowerL pat) (lowerL l) then some (l.take pat.length)
    else firstCIMatch pat rest

/-- Capture-group assignments of a regex match: pairs of group number and
captured span. -/
abbrev Groups : Type := List (Nat × List Char)

/-- Abstract syntax of the concrete date regexes of
`src/unnamed/part_000:69-75`: case-insensitive literals, single-character
classes, sequencing, alternation, greedy option, greedy bounded/unbounded
class repetition, and numbered capture groups. -/
inductive Pat where
  | lit : List Char → Pat
  | cls : (Char → Bool) → Pat
  | seq : Pat → Pat → Pat
  | alt : Pat → Pat → Pat
  | opt : Pat → Pat
  | rep : (Char → Bool) → Nat → Option Nat → Pat
  | grp : Nat → Pat → Pat

/-- Candidate consumption lengths for a greedy class repetition
`f{lo,hi}` at the head of `s`, longest first (backtracking order). -/
def repDrops (f : Char → Bool) (lo : Nat) (hi : Option Nat) (s : List Char) :
    List Nat :=
  let run := (s.takeWhile f).length
  let mx := min run (hi.getD run)
  if mx < lo then [] else (List.range (mx + 1 - lo)).map fun i => mx - i

/-- All ways a pattern can match a prefix of `s`, in backtracking priority
order (the head is the match the JS regex engine commits to): each entry is
the remaining suffix and the group captures made. -/
def mpat : Pat → List Char → List (List Char × Groups)
  | .lit w, s =>
    if prefixB (lowerL w) (lowerL s) then [(s.drop w.length, [])] else []
  | .cls f, s =>
    match s with
    | [] => []
    | c :: r => if f c then [(r, [])] else []
  | .seq p q, s =>
    (mpat p s).flatMap fun pr =>
      (mpat q pr.1).map fun qr => (qr.1, pr.2 ++ qr.2)
  | .alt p q, s => mpat p s ++ mpat q s
  | .opt p, s => mpat p s ++ [(s, [])]
  | .rep f lo hi, s => (repDrops f lo hi s).map fun k => (s.drop k, [])
  | .grp i p, s =>
    (mpat p s).map fun pr =>
      (pr.1, pr.2 ++ [(i, s.take (s.length - pr.1.length))])

/-- The committed match of a pattern anchored at the start of `s`. -/
def runFirst (p : Pat) (s : List Char) : Option Groups :=
  (mpat p s).head?.map Prod.snd

/-- Unanchored leftmost match (JS `text.match(re)`): try each start
position left to right, committing to the first position that matches. -/
def runRegex (p : Pat) : List Char → Option Groups
  | [] => runFirst p []
  | s@(_ :: rest) =>
    match runFirst p s with
    | some g => some g
    | none => runRegex p rest

/-- A date-regex candidate: its pattern and the number of its last capture
group (the group `m[m.length - 1]` denotes). -/
structure EtaRegex where
  pat : Pat
  lastGroup : Nat

/-- `\s*` -/
def wsStar : Pat := .rep isJsWhitespace 0 none

/-- `[:\-]?` -/
def sepOpt : Pat := .opt (.cls fun c => c = ':' ∨ c = '-')

/-- `[0-9]` / `\d` -/
def digitC (c : Char) : Bool := 48 ≤ c.toNat ∧ c.toNat ≤ 57

/-- `[A-Za-z]` (under the `i` flag). -/
def asciiLetter (c : Char) : Bool :=
  (65 ≤ c.toNat ∧ c.toNat ≤ 90) ∨ (97 ≤ c.toNat ∧ c.toNat ≤ 122)

/-- `[A-Za-zÁÉÍÓÚÑa-z]` under the `i` flag (both cases of the accented
letters match). -/
def spanishLetter (c : Char) : Bool :=
  asciiLetter c || c ∈ "ÁÉÍÓÚÑáéíóúñ".toList

/-- Right-nested sequencing of a pattern list. -/
def seqL : List Pat → Pat
  | [] => .lit []
  | [p] => p
  | p :: ps => .seq p (seqL ps)

/-- `[0-9]{1,2}\/[0-9]{1,2}\/[0-9]{2,4}` -/
def slashDate : Pat :=
  seqL [.rep digitC 1 (some 2), .lit ['/'], .rep digitC 1 (some 2),
    .lit ['/'], .rep digitC 2 (some 4)]

/-- `(estimada|prevista|programada)` -/
def spanishEtaWord : Pat :=
  .alt (.lit "estimada".toList)
    (.alt (.lit "prevista".toList) (.lit "programada".toList))

/-- First `etaRegexes` candidate of `src/unnamed/part_000:70`:
`/entrega (estimada|prevista|programada)\s*[:\-]?\s*([0-9]{1,2}\/[0-9]{1,2}\/[0-9]{2,4})/i`;
its last capture group is group 2. -/
def etaRegex1 : EtaRegex :=
  ⟨seqL [.lit "entrega ".toList, .grp 1 spanishEtaWord, wsStar, sepOpt,
      wsStar, .grp 2 slashDate], 2⟩

/-- Second candidate (`src/unnamed/part_000:71`):
`/(fecha|entrega) (estimada|prevista|programada)\s*[:\-]?\s*([A-Za-zÁÉÍÓÚÑa-z]+\.?\s*\d{1,2},?\s*\d{4})/i`;
its last capture group is group 3. -/
def etaRegex2 : EtaRegex :=
  ⟨seqL [.grp 1 (.alt (.lit "fecha".toList) (.lit "entrega".toList)),
      .lit " ".toList, .grp 2 spanishEtaWord, wsStar, sepOpt, wsStar,
      .grp 3 (seqL [.rep spanishLetter 1 none, .opt (.lit ['.']), wsStar,
        .rep digitC 1 (some 2), .opt (.lit [',']), wsStar,
        .rep digitC 4 (some 4)])], 3⟩

/-- Third candidate (`src/unnamed/part_000:73`):
`/(estimated|scheduled)\s*delivery\s*[:\-]?\s*([A-Za-z]+\s*\d{1,2},?\s*\d{4})/i`;
its last capture group is group 2. -/
def etaRegex3 : EtaRegex :=
  ⟨seqL [.grp 1 (.alt (.lit "estimated".toList) (.lit "scheduled".toList)),
      wsStar, .lit "delivery".toList, wsStar, sepOpt, wsStar,
      .grp 2 (seqL [.rep asciiLetter 1 none, wsStar,
        .rep digitC 1 (some 2), .opt (.lit [',']), wsStar,
        .rep digitC 4 (some 4)])], 2⟩

/-- Fourth candidate (`src/unnamed/part_000:74`):
`/(estimated|scheduled)\s*delivery\s*[:\-]?\s*([0-9]{1,2}\/[0-9]{1,2}\/[0-9]{2,4})/i`;
its last capture group is group 2. -/
def etaRegex4 : EtaRegex :=
  ⟨seqL [.grp 1 (.alt (.lit "estimated".toList) (.lit "scheduled".toList)),
      wsStar, .lit "delivery".toList, wsStar, sepOpt, wsStar,
      .grp 2 slashDate], 2⟩

/-- The four `etaRegexes` of `src/unnamed/part_000:69-75`, in source
order. -/
def etaRegexes : List EtaRegex := [etaRegex1, etaRegex2, etaRegex3, etaRegex4]

/-- Value of capture group `n` in a match (JS `m[n]`). -/
def lookupGroup (n : Nat) (g : Groups) : Option (List Char) :=
  (g.find? (fun e => e.1 = n)).map Prod.snd

/-- The ETA loop of `src/unnamed/part_000:76-84`: the candidates are tried
in order; the first whose regex matches wins and stops the loop, and the
extracted value is `m[m.length - 1]` — the last capture group of that
candidate. -/
def extractEtaFrom : List EtaRegex → List Char → Option (List Char)
  | [], _ => none
  | r :: rs, t =>
    match runRegex r.pat t with
    | some g => lookupGroup r.lastGroup g
    | none => extractEtaFrom rs t

/-- The result record of `extractStatusAndEta`. -/
structure SEResult where
  status : Option (List Char)
  etaText : Option (List Char)
deriving DecidableEq

/-- `extractStatusAndEta` of `src/unnamed/part_000:47-87`: collapse all
whitespace and trim, then (a) the first `statusCandidates` phrase that
occurs case-insensitively supplies `status` as the matched span of the
text, and (b) the ETA loop over `etaRegexes` supplies `etaText`. -/
def extractStatusAndEta (bigText : List Char) : SEResult :=
  let text := jsTrim (collapseAllWS bigText)
  { status :=
      match statusCandidatesP0.find? (fun p => infixB (lowerL p.toList) (lowerL text)) with
      | some p => firstCIMatch p.toList text
      | none => none
    etaText := extractEtaFrom etaRegexes text }

/-- The non-breaking-space character. -/
def nbspChar : Char := Char.ofNat 160

/-- `text.replace(/ /g, " ")` (`src/unnamed/part_001:66`). -/
def replNbsp (l : List Char) : List Char :=
  l.map fun c => if c = nbspChar then ' ' else c

/-- Horizontal whitespace: the class `[ \t]`. -/
def isHT (c : Char) : Bool := c = ' ' || c = '\t'

/-- Worker for `replace(/[ \t]+/g, " ")`: `inRun` records whether the
previous character belonged to a space/tab run already replaced. -/
def collapseHTAux (inRun : Bool) : List Char → List Char
  | [] => []
  | c :: rest =>
    if isHT c then
      if inRun then collapseHTAux true rest
      else ' ' :: collapseHTAux true rest
    else c :: collapseHTAux false rest

/-- `text.replace(/[ \t]+/g, " ")` (`src/unnamed/part_001:67`): every
maximal run of spaces/tabs becomes one space; line breaks survive. -/
def collapseHT (l : List Char) : List Char := collapseHTAux false l

/-- Worker for case-insensitive global phrase removal, structurally
recursive on a fuel that bounds the input length. -/
def removePhraseFuel (pat : List Char) : Nat → List Char → List Char
  | _, [] => []
  | 0, l => l
  | fuel + 1, c :: rest =>
    if !pat.isEmpty && prefixB pat (lowerL (c :: rest)) then
      removePhraseFuel pat fuel (rest.drop (pat.length - 1))
    else c :: removePhraseFuel pat fuel rest

/-- `text.replace(/<phrase>/gi, "")` for a fixed lowercase phrase: scan left
to right; wherever the phrase occurs case-insensitively, delete it and
resume scanning after the deleted occurrence. -/
def removePhrase (pat l : List Char) : List Char :=
  removePhraseFuel pat l.length l

/-- The English boilerplate phrase stripped by `sanitize`. -/
def skipEnPhrase : List Char := "skip to main content".toList

/-- The Spanish boilerplate phrase stripped by `sanitize`. -/
def skipEsPhrase : List Char := "ir al contenido principal".toList

/-- `sanitize` of `src/unnamed/part_001:64-71`: replace non-breaking
spaces, collapse space/tab runs, strip the two boilerplate phrases
(case-insensitively), and trim. -/
def sanitize (l : List Char) : List Char :=
  jsTrim (removePhrase skipEsPhrase
    (removePhrase skipEnPhrase (collapseHT (replNbsp l))))

/-- `sanitize` on `String`s. -/
def sanitizeS (s : String) : String := String.mk (sanitize s.toList)

/-- `CACHE_TTL_MS = 10 * 60 * 1000` (`src/app.js:157` of the embedded cache
server). -/
def CACHE_TTL_MS : Nat := 10 * 60 * 1000

/-- A cache entry: value plus absolute expiry timestamp
(`src/app.js:179-181`). -/
structure CacheEntry (α : Type) where
  value : α
  expires : Nat
deriving DecidableEq

/-- The in-memory `Map` cache, modelled as a key-unique association list
(JS `Map.set` replaces the entry for an existing key, `Map.delete` removes
it). -/
abbrev Cache (α : Type) := List (String × CacheEntry α)

/-- `setInCache` of `src/app.js:179-182`: store the value with
`expires = Date.now() + CACHE_TTL_MS`. -/
def setInCache (cache : Cache α) (key : String) (v : α) (now : Nat) :
    Cache α :=
  (key, ⟨v, now + CACHE_TTL_MS⟩) :: cache.filter fun p => p.1 ≠ key

/-- `getFromCache` of `src/app.js:165-172`: a hit while `now < expires`
returns the value; an expired entry is deleted at this read and reported as
a miss; there is no other eviction.  Returns the (possibly updated) cache
alongside the lookup result. -/
def getFromCache (cache : Cache α) (key : String) (now : Nat) :
    Option α × Cache α :=
  match cache.find? (fun p => p.1 = key) with
  | none => (none, cache)
  | some (_, e) =>
    if now < e.expires then (some e.value, cache)
    else (none, cache.filter fun p => p.1 ≠ key)

/-- JS truthiness of a request parameter that is either absent or a
string: `undefined`, `null` and `""` are falsy. -/
def truthy (v : Option String) : Bool :=
  match v with
  | none => false
  | some s => s ≠ ""

/-- The detail fields a carrier scraper of `src/server.js` /
`src/unnamed/part_001` may contribute to the response; a field the scraper
did not produce is `none` (absent from the JSON). -/
structure Details where
  status : Option String := none
  eta : Option String := none
  deliveredAt : Option String := none
  signedBy : Option String := none
  origin : Option String := none
  destination : Option String := none
  lastScan : Option String := none
deriving DecidableEq

/-- Responses of `GET /api/track` (`src/server.js:225-251`,
`src/unnamed/part_001:267-294`): 400 for missing parameters, 400
`Carrier no soportado` (carrying the carrier, no `officialUrl` key), 200
`{ok:true, carrier, code, officialUrl, ...details}`, or the outer 500
catch. -/
inductive ApiResponse where
  | missingParams : ApiResponse
  | unsupportedCarrier : String → ApiResponse
  | success : String → String → String → Details → ApiResponse
  | internalError : ApiResponse
deriving DecidableEq

/-- The `GET /api/track` handler of `src/server.js:225-251` as a pure
function of the query parameters, the `USE_SCRAPE` toggle, and the outcome
of the scrape step (`Except.error` models a thrown fetch failure).  When
`USE_SCRAPE` is off the scrape step is never consulted; when it throws,
`details` falls back to `{}`. -/
def apiTrack (carrier code : Option String) (useScrape : Bool)
    (fetch : Except String Details) : ApiResponse :=
  if truthy carrier && truthy code then
    match officialLink carrier (code.getD "") with
    | none => .unsupportedCarrier (carrier.getD "")
    | some url =>
      .success (carrier.getD "") (code.getD "") url
        (if useScrape then
          (match fetch with
           | .ok d => d
           | .error _ => {})
         else {})
  else .missingParams

/-- `x || null` for a value that is an extracted string or absent: empty
and absent collapse to `null`. -/
def orNullStr (v : Option (List Char)) : Option String :=
  match v with
  | none => none
  | some l => if l.isEmpty then none else some (String.mk l)

/-- Responses of `POST /api/track` in `src/unnamed/part_000:115-154`: the
success body always carries explicit `status`, `eta` and `title` fields
(`null` when nothing was extracted). -/
inductive P0Response where
  | missingParams : P0Response
  | unsupportedCarrier : String → P0Response
  | success : String → String → String → Option String → Option String →
      Option String → P0Response
  | internalError : P0Response
deriving DecidableEq

/-- The `POST /api/track` handler of `src/unnamed/part_000:115-154` as a
pure function.  The fetch outcome provides the page body text and title;
a thrown fetch degrades to the link-only response.  A `TypeError` escaping
`officialLink` would hit the outer catch (`internalError`). -/
def postTrackP0 (carrier code : Option String)
    (fetch : Except String (List Char × String)) : P0Response :=
  if truthy carrier && truthy code then
    match officialLinkP0 carrier (code.getD "") with
    | .error _ => .internalError
    | .ok none => .unsupportedCarrier (carrier.getD "")
    | .ok (some url) =>
      match fetch with
      | .error _ =>
        .success (carrier.getD "") (code.getD "") url none none none
      | .ok (bodyText, pageTitle) =>
        let parsed := extractStatusAndEta bodyText
        .success (carrier.getD "") (code.getD "") url
          (orNullStr parsed.status) (orNullStr parsed.etaText)
          (some pageTitle)
  else .missingParams

/-- The value shape the `src/app.js` embedded server's scrapers return and
cache: `{ latest_status, latest_date }`. -/
structure ScrapeVal where
  latest_status : String
  latest_date : Option String
deriving DecidableEq

/-- Responses of `GET /track/:carrier` (`src/app.js:381-402`): 404 for an
unknown carrier key, 400 for a missing number, 200 with the scrape value
and a `cached` flag, or — when the scraper throws — a 500 carrying the
error message. -/
inductive TrackResponse where
  | unsupported : String → TrackResponse
  | missingNumber : TrackResponse
  | okResp : String → String → ScrapeVal → Bool → TrackResponse
  | serverError : String → TrackResponse
deriving DecidableEq

/-- The keys of the `scrapers` dispatch table (`src/app.js:372-378`);
`scrapers[carrier]` is a case-sensitive lookup. -/
def scraperCarriers : List String := ["dhl", "fedex", "ups", "delta", "expeditors"]

/-- The cache key built at `src/app.js:390`:
`` `${carrier}:${trackingNumber}` `` where `trackingNumber` is the trimmed
query parameter.  Neither component is lower-cased. -/
def trackCacheKey (carrier trimmedNumber : String) : String :=
  carrier ++ ":" ++ trimmedNumber

/-- The `GET /track/:carrier` handler of `src/app.js:381-402` as a pure
function of the path/query parameters, the cache state, the current time,
and the scraper outcome.  Returns the response and the updated cache. -/
def trackCarrier (carrier : String) (numberParam : Option String)
    (cache : Cache ScrapeVal) (now : Nat)
    (scrape : Except String ScrapeVal) : TrackResponse × Cache ScrapeVal :=
  let trackingNumber := jsTrimS (numberParam.getD "")
  if carrier ∉ scraperCarriers then (.unsupported carrier, cache)
  else if trackingNumber = "" then (.missingNumber, cache)
  else
    let key := trackCacheKey carrier trackingNumber
    match getFromCache cache key now with
    | (some v, cache1) => (.okResp carrier trackingNumber v true, cache1)
    | (none, cache1) =>
      match scrape with
      | .ok result =>
        (.okResp carrier trackingNumber result false,
          setInCache cache1 key result now)
      | .error m =>
        (.serverError (if m = "" then "Tracking failed" else m), cache1)

/-- Adjacent-pair relation: no two consecutive spaces. -/
def RnoDoubleSpace (a b : Char) : Prop := ¬(a = ' ' ∧ b = ' ')

/-- A character list in the image of `collapseHT`: no tab, and no two
adjacent spaces. -/
def Collapsed (l : List Char) : Prop :=
  (∀ c ∈ l, c ≠ '\t') ∧ List.Chain' RnoDoubleSpace l

/-- The (lower-cased) phrase does not occur in the lower-casing of `l`. -/
abbrev PhraseFreeCI (pat l : List Char) : Prop := ¬ pat <:+: lowerL l

/-! ## Helper lemmas -/

theorem char_toNat_ofNat (n : Nat) (h : n.isValidChar) :
    (Char.ofNat n).toNat = n := by
  simp [Char.ofNat, h, Char.ofNatAux, Char.toNat, UInt32.toNat, BitVec.ofNatLt]

theorem lowerCp_idem (n : Nat) : lowerCp (lowerCp n) = lowerCp n := by
  unfold lowerCp
  split
  · split
    · omega
    · rfl
  · rfl

theorem lowerCp_valid (n : Nat) (h : n.isValidChar) : (lowerCp n).isValidChar := by
  unfold lowerCp
  rcases h with h | h
  · split
    · exact Or.inl (by omega)
    · exact Or.inl h
  · split
    · exact Or.inl (by omega)
    · exact Or.inr h

theorem lowerChar_toNat (c : Char) : (lowerChar c).toNat = lowerCp c.toNat :=
  char_toNat_ofNat _ (lowerCp_valid _ c.valid)

theorem lowerChar_idem (c : Char) : lowerChar (lowerChar c) = lowerChar c := by
  show Char.ofNat (lowerCp (lowerChar c).toNat) = lowerChar c
  rw [lowerChar_toNat, lowerCp_idem]
  rfl

theorem lowerL_idem (l : List Char) : lowerL (lowerL l) = lowerL l := by
  induction l with
  | nil => rfl
  | cons c rest ih =>
    simp only [lowerL, List.map_cons] at ih ⊢
    rw [lowerChar_idem]
    exact congrArg _ ih

theorem toList_mk (l : List Char) : (String.mk l).toList = l := rfl

theorem officialLinkP0_some (s code : String) :
    officialLinkP0 (some s) code = Except.ok (officialLink (some s) code) := rfl

/-! ## Claim C10: totality of officialLink in its carrier argument -/

/-- C10, counterexample.  The claim says every variant of `officialLink`
returns a URL string or null for every carrier value, including an absent
(`undefined`/`null`) carrier, and never throws.  In
`src/unnamed/part_000:23` the carrier is dereferenced with no guard
(`carrier.toLowerCase()`), so an absent carrier throws a `TypeError`. -/
theorem C10_counterexample : officialLinkP0 none "ABC" = Except.error () := rfl

/-- C10, amended: the guarded variants
(`src/server.js`, `src/app.js`, `src/unnamed/part_001`) are total — the
`carrier || ""` guard means the lower-casing call never sees an absent
receiver — and return a URL or null for every carrier and code; the
`src/unnamed/part_000` variant agrees with them whenever the carrier is an
actual string, but throws a `TypeError` when the carrier is absent. -/
theorem C10_officialLink_totality :
    (∀ (carrier : Option String) (code : String),
        officialLinkGuardedE carrier code = Except.ok (officialLink carrier code))
    ∧ (∀ code : String, officialLinkP0 none code = Except.error ())
    ∧ (∀ (s code : String),
        officialLinkP0 (some s) code = Except.ok (officialLink (some s) code)) :=
  ⟨fun _ _ => rfl, fun _ => rfl, fun s code => officialLinkP0_some s code⟩

/-! ## Claim C7: case-insensitive, alias-tolerant carrier resolution -/

/-- C7, counterexample.  The claim says the aliases `delta`, `delta-cargo`
and `deltacargo` all resolve to the same Delta Cargo profile in the cited
resolvers, which include `officialLink` of `src/app.js:26-43`; that variant
has no `deltacargo` case label and resolves it to null while `delta`
resolves to the Delta Cargo URL. -/
theorem C7_counterexample :
    officialLinkApp (some "deltacargo") "1" = none
    ∧ officialLinkApp (some "delta") "1" ≠ none := by
  decide

/-- C7, amended: every `officialLink` variant lower-cases the carrier
first, so resolution is case-insensitive for all carrier ids; `delta`,
`delta-cargo` and `deltacargo` resolve to the same (non-null) Delta Cargo
URL in `src/server.js` / `src/unnamed/part_000` / `src/unnamed/part_001`,
while in `src/app.js` only `delta` and `delta-cargo` do and `deltacargo`
resolves to null. -/
theorem C7_carrier_resolution :
    (∀ (s code : String),
        officialLink (some s) code = officialLink (some (lowerS s)) code)
    ∧ (∀ (s code : String),
        officialLinkApp (some s) code = officialLinkApp (some (lowerS s)) code)
    ∧ (∀ code : String,
        officialLink (some "delta") code = officialLink (some "delta-cargo") code
        ∧ officialLink (some "delta") code = officialLink (some "deltacargo") code
        ∧ (officialLink (some "delta") code).isSome = true)
    ∧ (∀ code : String,
        officialLinkApp (some "delta") code
          = officialLinkApp (some "delta-cargo") code
        ∧ officialLinkApp (some "deltacargo") code = none) := by
  refine ⟨fun s code => ?_, fun s code => ?_,
    fun code => ⟨rfl, rfl, rfl⟩, fun code => ⟨rfl, rfl⟩⟩
  · simp only [officialLink, Option.getD_some, lowerS, String.toList,
      lowerL_idem]
  · simp only [officialLinkApp, Option.getD_some, lowerS, String.toList,
      lowerL_idem]

/-! ## Claim C8: unsupported carrier yields a distinguishable client error -/

/-- C8, confirmed: for every unsupported carrier id with a non-empty code,
both `/api/track` handlers return the 400 `Carrier no soportado` response
carrying the carrier (and no `officialUrl`, i.e. `officialUrl` null); this
outcome is a different constructor from every success response (so it is
distinguishable from "supported carrier, extraction found nothing"), and
no fault is thrown (the handlers return normally, not via the 500 catch). -/
theorem C8_unsupported_carrier (carrier code : String) (us : Bool)
    (fd : Except String Details) (fp : Except String (List Char × String))
    (hc : carrier ≠ "") (hk : code ≠ "")
    (hunsup : officialLink (some carrier) code = none) :
    apiTrack (some carrier) (some code) us fd
      = ApiResponse.unsupportedCarrier carrier
    ∧ postTrackP0 (some carrier) (some code) fp
      = P0Response.unsupportedCarrier carrier
    ∧ (∀ (c k u : String) (d : Details),
        ApiResponse.unsupportedCarrier carrier ≠ ApiResponse.success c k u d)
    ∧ postTrackP0 (some carrier) (some code) fp ≠ P0Response.internalError := by
  have ht : (truthy (some carrier) && truthy (some code)) = true := by
    simp [truthy, hc, hk]
  have hp0 : officialLinkP0 (some carrier) code = Except.ok none := by
    rw [officialLinkP0_some, hunsup]
  refine ⟨?_, ?_, fun c k u d h => ApiResponse.noConfusion h, ?_⟩
  · simp [apiTrack, ht, hunsup]
  · simp [postTrackP0, ht, hp0]
  · simp [postTrackP0, ht, hp0]

/-- C8, witness at carrier `zzz-unknown`, code `ABC`. -/
theorem C8_unsupported_carrier_witness :
    apiTrack (some "zzz-unknown") (some "ABC") false (Except.ok {})
      = ApiResponse.unsupportedCarrier "zzz-unknown"
    ∧ postTrackP0 (some "zzz-unknown") (some "ABC") (Except.ok ([], "t"))
      = P0Response.unsupportedCarrier "zzz-unknown" := by
  have h := C8_unsupported_carrier "zzz-unknown" "ABC" false (Except.ok {})
    (Except.ok ([], "t")) (by decide) (by decide) rfl
  exact ⟨h.1, h.2.1⟩

/-! ## Claim C5: cache put/get round-trip and lazy TTL expiry -/

/-- C5, confirmed: a `setInCache` followed by `getFromCache` at the same
instant returns the stored value, and once the fixed 10-minute TTL window
from the moment of the put has elapsed, `getFromCache` reports a miss and
the returned cache no longer contains an entry for the key (the entry is
evicted at that read; no other code evicts). -/
theorem C5_cache_roundtrip_and_expiry {α : Type} (cache : Cache α)
    (key : String) (v : α) (tPut tRead : Nat) :
    (getFromCache (setInCache cache key v tPut) key tPut).fst = some v
    ∧ (tPut + CACHE_TTL_MS ≤ tRead →
        (getFromCache (setInCache cache key v tPut) key tRead).fst = none
        ∧ ((getFromCache (setInCache cache key v tPut) key tRead).snd.all
            fun p => p.1 ≠ key) = true) := by
  constructor
  · have hfind : (setInCache cache key v tPut).find? (fun p => p.1 = key)
        = some (key, ⟨v, tPut + CACHE_TTL_MS⟩) := by
      unfold setInCache
      exact List.find?_cons_of_pos _ (by simp)
    simp [getFromCache, hfind, CACHE_TTL_MS]
  · intro hexp
    have hfind : (setInCache cache key v tPut).find? (fun p => p.1 = key)
        = some (key, ⟨v, tPut + CACHE_TTL_MS⟩) := by
      unfold setInCache
      exact List.find?_cons_of_pos _ (by simp)
    have hlt : ¬ tRead < tPut + CACHE_TTL_MS := by omega
    constructor
    · simp [getFromCache, hfind, hlt]
    · simp only [getFromCache, hfind, hlt, if_false]
      simp [List.all_eq_true, List.mem_filter]

/-- C5, witness: value 7 under key `a` stored at time 0, read back at time
0 and again at exactly the TTL boundary. -/
theorem C5_cache_roundtrip_and_expiry_witness :
    (getFromCache (setInCache ([] : Cache Nat) "a" 7 0) "a" 0).fst = some 7
    ∧ (getFromCache (setInCache ([] : Cache Nat) "a" 7 0) "a"
        CACHE_TTL_MS).fst = none := by
  have h := C5_cache_roundtrip_and_expiry ([] : Cache Nat) "a" 7 0 CACHE_TTL_MS
  exact ⟨h.1, (h.2 (by decide)).1⟩

/-! ## Claim C9: scraping disabled yields a link-only result, no fetch -/

/-- C9, counterexample.  The claim asserts, for every supported carrier,
that the link-only result's `officialUrl` contains the percent-encoded
code; for carrier `expeditors` the URL is the static tracking landing page
and does not contain the code. -/
theorem C9_counterexample :
    apiTrack (some "expeditors") (some "1234567890") false (Except.ok {})
      = ApiResponse.success "expeditors" "1234567890"
          "https://www.expeditors.com/tracking" {}
    ∧ ¬ encodeURIComponent "1234567890".toList
        <:+: "https://www.expeditors.com/tracking".toList := by
  constructor
  · rfl
  · decide

/-- C9, amended: with scraping administratively disabled, the
`GET /api/track` handler returns — for every supported carrier and
non-empty code, and regardless of what the fetch step would have produced —
the 200 response carrying the resolved `officialUrl` and no extracted
fields (all detail fields null); the URL contains the percent-encoded code
for the carriers whose template embeds it (dhl, fedex, ups, and the delta
aliases), but not for expeditors, whose URL is a static landing page. -/
theorem C9_scrape_disabled_link_only (carrier code url : String)
    (f : Except String Details) (hc : carrier ≠ "") (hk : code ≠ "")
    (hurl : officialLink (some carrier) code = some url) :
    apiTrack (some carrier) (some code) false f
      = ApiResponse.success carrier code url
          { status := none, eta := none, deliveredAt := none,
            signedBy := none, origin := none, destination := none,
            lastScan := none }
    ∧ ((carrier = "dhl" ∨ carrier = "fedex" ∨ carrier = "ups"
        ∨ carrier = "delta" ∨ carrier = "delta-cargo"
        ∨ carrier = "deltacargo") →
        encodeURIComponent code.toList <:+: url.toList) := by
  have ht : (truthy (some carrier) && truthy (some code)) = true := by
    simp [truthy, hc, hk]
  constructor
  · simp [apiTrack, ht, hurl]
  · rintro (h | h | h | h | h | h) <;> subst h
    · have h2 : officialLink (some "dhl") code
          = some (String.mk (dhlUrl code.toList)) := rfl
      have h3 : url.toList = dhlUrl code.toList := by
        have := Option.some.inj (h2.symm.trans hurl)
        rw [← this]
        rfl
      rw [h3]
      exact ⟨"https://www.dhl.com/mx-es/home/rastreo.html?tracking-id=".toList,
        [], by simp [dhlUrl]⟩
    · have h2 : officialLink (some "fedex") code
          = some (String.mk (fedexUrl code.toList)) := rfl
      have h3 : url.toList = fedexUrl code.toList := by
        have := Option.some.inj (h2.symm.trans hurl)
        rw [← this]
        rfl
      rw [h3]
      exact ⟨"https://www.fedex.com/fedextrack/?trknbr=".toList,
        "&cntry_code=mx_esp".toList, by simp [fedexUrl]⟩
    · have h2 : officialLink (some "ups") code
          = some (String.mk (upsUrl code.toList)) := rfl
      have h3 : url.toList = upsUrl code.toList := by
        have := Option.some.inj (h2.symm.trans hurl)
        rw [← this]
        rfl
      rw [h3]
      exact ⟨"https://www.ups.com/track?loc=es_MX&tracknum=".toList,
        "&requester=ST/".toList, by simp [upsUrl]⟩
    · have h2 : officialLink (some "delta") code
          = some (String.mk (deltaUrl code.toList)) := rfl
      have h3 : url.toList = deltaUrl code.toList := by
        have := Option.some.inj (h2.symm.trans hurl)
        rw [← this]
        rfl
      rw [h3]
      exact ⟨"https://www.deltacargo.com/Cargo/trackShipment?airbillnumber=".toList,
        [], by simp [deltaUrl]⟩
    · have h2 : officialLink (some "delta-cargo") code
          = some (String.mk (deltaUrl code.toList)) := rfl
      have h3 : url.toList = deltaUrl code.toList := by
        have := Option.some.inj (h2.symm.trans hurl)
        rw [← this]
        rfl
      rw [h3]
      exact ⟨"https://www.deltacargo.com/Cargo/trackShipment?airbillnumber=".toList,
        [], by simp [deltaUrl]⟩
    · have h2 : officialLink (some "deltacargo") code
          = some (String.mk (deltaUrl code.toList)) := rfl
      have h3 : url.toList = deltaUrl code.toList := by
        have := Option.some.inj (h2.symm.trans hurl)
        rw [← this]
        rfl
      rw [h3]
      exact ⟨"https://www.deltacargo.com/Cargo/trackShipment?airbillnumber=".toList,
        [], by simp [deltaUrl]⟩

/-- C9, witness: the end-to-end scenario carrier `dhl`,
code `1234567890`, scraping disabled, fetch would have failed. -/
theorem C9_scrape_disabled_link_only_witness :
    apiTrack (some "dhl") (some "1234567890") false (Except.error "down")
      = ApiResponse.success "dhl" "1234567890"
          "https://www.dhl.com/mx-es/home/rastreo.html?tracking-id=1234567890"
          { status := none, eta := none, deliveredAt := none,
            signedBy := none, origin := none, destination := none,
            lastScan := none }
    ∧ encodeURIComponent "1234567890".toList
        <:+: "https://www.dhl.com/mx-es/home/rastreo.html?tracking-id=1234567890".toList := by
  have h := C9_scrape_disabled_link_only "dhl" "1234567890"
    "https://www.dhl.com/mx-es/home/rastreo.html?tracking-id=1234567890"
    (Except.error "down") (by decide) (by decide) rfl
  exact ⟨h.1, h.2 (Or.inl rfl)⟩

/-! ## Claim C2: status canonicalization vocabulary -/

/-- C2, counterexample.  The claim says text containing `Entregado` (any
case) canonicalizes to the token `delivered` from the vocabulary
`{delivered, out_for_delivery, in_transit, picked_up, delayed, unknown}`.
The code has no such canonicalization: `extractStatus`
(`src/app.js:211-221`) returns the matched keyword from its fixed list
verbatim (`"Entregado"`), and `extractStatusAndEta`
(`src/unnamed/part_000:50-65`) returns the raw matched span of the input
text (`"ENTREGADO"`), never `delivered`. -/
theorem C2_counterexample :
    extractStatus "Paquete Entregado hoy".toList = some "Entregado"
    ∧ (some "Entregado" : Option String) ≠ some "delivered"
    ∧ (extractStatusAndEta "Su paquete: ENTREGADO.".toList).status
        = some "ENTREGADO".toList
    ∧ (some "ENTREGADO".toList : Option (List Char)) ≠ some "delivered".toList := by
  refine ⟨by decide, by decide, by decide, by decide⟩

/-- C2, amended: `extractStatus` always returns an element of its fixed
keyword list (in the list's own casing) or `none`: text containing
`Entregado` in any case yields the keyword `"Entregado"`, text containing
`In Transit` yields `"In Transit"`; when no keyword matches the result is
`none` (JS `null`), which the carrier scrapers replace with the string
`"Unknown"` (`extractStatus(bodyText) || 'Unknown'`). -/
theorem C2_status_keywords :
    (∀ (t : List Char) (s : String), extractStatus t = some s → s ∈ statuses)
    ∧ extractStatus "Paquete ENTREGADO en CDMX".toList = some "Entregado"
    ∧ extractStatus "Package In Transit now".toList = some "In Transit"
    ∧ (∀ t : List Char, extractStatus t = none → latestStatus t = "Unknown") := by
  refine ⟨fun t s h => List.mem_of_find?_eq_some h, by decide, by decide,
    fun t h => ?_⟩
  simp [latestStatus, h]

/-- C2, witness: the amended claim's quantified parts applied at concrete
texts. -/
theorem C2_status_keywords_witness :
    "Entregado" ∈ statuses
    ∧ latestStatus "nothing to see".toList = "Unknown" :=
  ⟨C2_status_keywords.1 "Paquete ENTREGADO en CDMX".toList "Entregado"
      (by decide),
   C2_status_keywords.2.2.2 "nothing to see".toList (by decide)⟩

/-! ## Claim C1: fetch failure degrades to a link-only success -/

/-- C1, counterexample.  The claim says a fetch/scrape failure is never
surfaced to the caller as a request failure in any cited handler; but the
`GET /track/:carrier` handler of `src/app.js:395-401` responds 500 with
the error message when the scraper throws (and carries no officialUrl). -/
theorem C1_counterexample :
    (trackCarrier "dhl" (some "1") [] 0 (Except.error "boom")).fst
      = TrackResponse.serverError "boom" := by
  decide

/-- C1, amended: in the `/api/track` handlers a thrown fetch/scrape is
caught locally: for every supported carrier and non-empty code, the
`GET /api/track` handler (`src/server.js:237-246`) answers 200 with the
resolved `officialUrl` and no extracted fields, and the `POST /api/track`
handler (`src/unnamed/part_000:127-149`) answers 200 with the
`officialUrl` and null status/eta/title; but the `GET /track/:carrier`
handler (`src/app.js:395-401`) instead surfaces a scraper error as a 500
response carrying the error message. -/
theorem C1_fetch_failure_link_only (carrier code url e : String)
    (hc : carrier ≠ "") (hk : code ≠ "")
    (hurl : officialLink (some carrier) code = some url) :
    apiTrack (some carrier) (some code) true (Except.error e)
      = ApiResponse.success carrier code url
          { status := none, eta := none, deliveredAt := none,
            signedBy := none, origin := none, destination := none,
            lastScan := none }
    ∧ postTrackP0 (some carrier) (some code) (Except.error e)
      = P0Response.success carrier code url none none none
    ∧ (∀ (cache : Cache ScrapeVal) (now : Nat) (m : String),
        m ≠ "" →
        (getFromCache cache (trackCacheKey carrier (jsTrimS code)) now).fst
          = none →
        carrier ∈ scraperCarriers → jsTrimS code = code →
        (trackCarrier carrier (some code) cache now (Except.error m)).fst
          = TrackResponse.serverError m) := by
  have ht : (truthy (some carrier) && truthy (some code)) = true := by
    simp [truthy, hc, hk]
  have hp0 : officialLinkP0 (some carrier) code
      = Except.ok (some url) := by
    rw [officialLinkP0_some, hurl]
  refine ⟨by simp [apiTrack, ht, hurl], by simp [postTrackP0, ht, hp0], ?_⟩
  intro cache now m hm hmiss hsup htrim
  rw [htrim] at hmiss
  have hnum : jsTrimS ((some code).getD "") = code := by
    simpa using htrim
  have hnn : ¬ carrier ∉ scraperCarriers := fun h => h hsup
  rcases hgg : getFromCache cache (trackCacheKey carrier code) now with
    ⟨res, cache1⟩
  have hres : res = none := by
    rw [hgg] at hmiss
    exact hmiss
  subst hres
  simp only [trackCarrier, hnum, if_neg hnn, if_neg hk, hgg]
  simp [hm]

/-! ## Claim C4: ETA candidate order and last-capture-group tie-break -/

/-- C4, confirmed: the ETA loop tries the date-pattern candidates in
order; the first whose regex matches the text wins, and the extracted
value is the span captured by the LAST capture group of that candidate
(`m[m.length - 1]`), not the first group (which captures the labeling
prefix).  In particular `"Entrega estimada: 27/08/2025"` extracts
`"27/08/2025"` (and not the group-1 label `"estimada"`), and
`"Estimated delivery: August 27, 2025"` extracts `"August 27, 2025"`. -/
theorem C4_eta_extraction :
    (∀ (t : List Char) (pre post : List EtaRegex) (r : EtaRegex)
        (g : Groups),
        (∀ r0 ∈ pre, runRegex r0.pat t = none) →
        runRegex r.pat t = some g →
        extractEtaFrom (pre ++ r :: post) t = lookupGroup r.lastGroup g)
    ∧ (extractStatusAndEta "Entrega estimada: 27/08/2025".toList).etaText
        = some "27/08/2025".toList
    ∧ (extractStatusAndEta "Entrega estimada: 27/08/2025".toList).etaText
        ≠ some "estimada".toList
    ∧ (extractStatusAndEta "Estimated delivery: August 27, 2025".toList).etaText
        = some "August 27, 2025".toList := by
  refine ⟨fun t pre post r g hpre hr => ?_, by decide, by decide, by decide⟩
  induction pre with
  | nil =>
    simp only [List.nil_append, extractEtaFrom, hr]
  | cons r0 pre ih =>
    have h0 : runRegex r0.pat t = none := hpre r0 (List.mem_cons_self r0 pre)
    simp only [List.cons_append, extractEtaFrom, h0]
    exact ih fun x hx => hpre x (List.mem_cons_of_mem r0 hx)

/-- C4, witness: the first-match-wins / last-group contract applied at the
first candidate and the concrete Spanish input; the winning match's group
1 holds the label `"estimada"` and its group 2 the date. -/
theorem C4_eta_extraction_witness :
    extractEtaFrom etaRegexes
        (jsTrim (collapseAllWS "Entrega estimada: 27/08/2025".toList))
      = lookupGroup etaRegex1.lastGroup
          [(1, "estimada".toList), (2, "27/08/2025".toList)] :=
  C4_eta_extraction.1
    (jsTrim (collapseAllWS "Entrega estimada: 27/08/2025".toList))
    [] [etaRegex2, etaRegex3, etaRegex4] etaRegex1
    [(1, "estimada".toList), (2, "27/08/2025".toList)]
    (fun r0 h => absurd h (List.not_mem_nil r0))
    (by decide)

/-! ## Trim lemmas (shared by C6 and C3) -/

theorem dropWhile_idem {α : Type} (p : α → Bool) (l : List α) :
    (l.dropWhile p).dropWhile p = l.dropWhile p := by
  induction l with
  | nil => rfl
  | cons c rest ih =>
    by_cases h : p c
    · simp [List.dropWhile_cons, h, ih]
    · simp [List.dropWhile_cons, h]

theorem jsTrimLeft_idem (l : List Char) :
    jsTrimLeft (jsTrimLeft l) = jsTrimLeft l :=
  dropWhile_idem _ l

theorem jsTrimRight_idem (l : List Char) :
    jsTrimRight (jsTrimRight l) = jsTrimRight l := by
  simp [jsTrimRight, List.reverse_reverse, dropWhile_idem]

theorem jsTrimRight_isPre (l : List Char) : jsTrimRight l <+: l := by
  have h := List.dropWhile_suffix (l := l.reverse) isJsWhitespace
  have h2 := List.reverse_prefix.mpr h
  rwa [List.reverse_reverse] at h2

theorem trimLeft_eq_self_of_pre {y u : List Char}
    (hpre : y <+: u) (hu : jsTrimLeft u = u) : jsTrimLeft y = y := by
  cases y with
  | nil => rfl
  | cons c ys =>
    obtain ⟨t, ht⟩ := hpre
    have hc : isJsWhitespace c = false := by
      by_contra hc
      have hc' : isJsWhitespace c = true := by
        revert hc
        cases isJsWhitespace c <;> simp
      rw [← ht, List.cons_append] at hu
      rw [jsTrimLeft, List.dropWhile_cons, if_pos hc'] at hu
      have hlen := congrArg List.length hu
      simp only [List.length_cons] at hlen
      have hle := (List.dropWhile_sublist (l := ys ++ t) isJsWhitespace).length_le
      omega
    rw [jsTrimLeft, List.dropWhile_cons, if_neg (by simp [hc])]

theorem jsTrim_idem (l : List Char) : jsTrim (jsTrim l) = jsTrim l := by
  unfold jsTrim
  rw [trimLeft_eq_self_of_pre (jsTrimRight_isPre (jsTrimLeft l))
      (jsTrimLeft_idem l), jsTrimRight_idem]

theorem jsTrimS_idem (s : String) : jsTrimS (jsTrimS s) = jsTrimS s := by
  unfold jsTrimS
  rw [toList_mk, jsTrim_idem]

/-! ## Claim C6: the cache key is not case-normalized -/

/-- C6, counterexample.  The claim says the cache key is the
lowercase-trimmed `carrier:code`, so requests differing only in letter
case share a cache entry.  At `src/app.js:390` the key is built from the
raw (un-lowercased) carrier and the trimmed (un-lowercased) number: the
keys for codes `ABC` and `abc` differ, and a second request differing only
in the code's case misses the cache and performs a fresh scrape. -/
theorem C6_counterexample :
    trackCacheKey "dhl" (jsTrimS "ABC") ≠ trackCacheKey "dhl" (jsTrimS "abc")
    ∧ (trackCarrier "dhl" (some "abc")
        (trackCarrier "dhl" (some "ABC") [] 0
          (Except.ok ⟨"Delivered", some "27/08/2025"⟩)).snd
        0 (Except.ok ⟨"In Transit", none⟩)).fst
      = TrackResponse.okResp "dhl" "abc" ⟨"In Transit", none⟩ false := by
  constructor
  · decide
  · decide

/-- C6, amended: the cache key is `carrier:number` with the number trimmed
of surrounding whitespace but neither component lower-cased: a request
whose number differs only in surrounding whitespace maps to the same key
(trimming is idempotent and leading spaces are dropped) and hits the cached
entry, while case differences produce distinct keys (see the
counterexample); a carrier in different case is rejected as unsupported by
the case-sensitive `scrapers[carrier]` lookup before the cache is ever
consulted. -/
theorem C6_cache_key_trim_not_case :
    (∀ (carrier number : String),
        trackCacheKey carrier (jsTrimS (jsTrimS number))
          = trackCacheKey carrier (jsTrimS number))
    ∧ (∀ l : List Char, jsTrim (' ' :: l) = jsTrim l)
    ∧ (trackCarrier "dhl" (some " A1 ")
         (trackCarrier "dhl" (some "A1") [] 0
           (Except.ok ⟨"Delivered", none⟩)).snd
         5 (Except.error "net")).fst
        = TrackResponse.okResp "dhl" "A1" ⟨"Delivered", none⟩ true
    ∧ (trackCarrier "DHL" (some "A1") [] 0
         (Except.ok ⟨"Delivered", none⟩)).fst
        = TrackResponse.unsupported "DHL" := by
  refine ⟨fun carrier number => ?_, fun l => ?_, by decide, by decide⟩
  · rw [jsTrimS_idem]
  · unfold jsTrim jsTrimLeft
    rw [List.dropWhile_cons, if_pos (by decide)]

/-- C1, witness: carrier `dhl`, code `12`, scraper throwing `boom`: the
`GET /api/track` handler answers 200 link-only while the
`GET /track/:carrier` handler answers 500. -/
theorem C1_fetch_failure_link_only_witness :
    apiTrack (some "dhl") (some "12") true (Except.error "boom")
      = ApiResponse.success "dhl" "12"
          "https://www.dhl.com/mx-es/home/rastreo.html?tracking-id=12"
          { status := none, eta := none, deliveredAt := none,
            signedBy := none, origin := none, destination := none,
            lastScan := none }
    ∧ (trackCarrier "dhl" (some "12") [] 0 (Except.error "boom")).fst
        = TrackResponse.serverError "boom" := by
  have h := C1_fetch_failure_link_only "dhl" "12"
    "https://www.dhl.com/mx-es/home/rastreo.html?tracking-id=12" "boom"
    (by decide) (by decide) rfl
  exact ⟨h.1, h.2.2 [] 0 "boom" (by decide) (by decide) (by decide)
    (by decide)⟩

/-! ## Sanitizer lemmas for claim C3 -/

theorem prefixB_iff : ∀ (p l : List Char), prefixB p l = true ↔ p <+: l
  | [], l => by simp [prefixB]
  | a :: as, [] => by simp [prefixB]
  | a :: as, b :: bs => by
    rw [prefixB, Bool.and_eq_true, decide_eq_true_eq, prefixB_iff as bs,
      List.cons_prefix_cons]

theorem phraseFree_mono {pat l1 l2 : List Char} (hsub : l1 <:+: l2)
    (h : PhraseFreeCI pat l2) : PhraseFreeCI pat l1 :=
  fun hin => h (hin.trans (List.IsInfix.map lowerChar hsub))

theorem phraseFree_tail {pat : List Char} {c : Char} {rest : List Char}
    (h : PhraseFreeCI pat (c :: rest)) : PhraseFreeCI pat rest := by
  intro hin
  refine h ?_
  rw [show lowerL (c :: rest) = lowerChar c :: lowerL rest from rfl]
  exact List.infix_cons hin

theorem removePhraseFuel_no_occur (pat : List Char) :
    ∀ (fuel : Nat) (l : List Char), PhraseFreeCI pat l →
      removePhraseFuel pat fuel l = l := by
  intro fuel
  induction fuel with
  | zero =>
    intro l h
    cases l <;> rfl
  | succ n ih =>
    intro l h
    cases l with
    | nil => rfl
    | cons c rest =>
      have hguard :
          (!pat.isEmpty && prefixB pat (lowerL (c :: rest))) = false := by
        by_cases hp : prefixB pat (lowerL (c :: rest)) = true
        · exact absurd ((prefixB_iff _ _).mp hp).isInfix h
        · simp only [Bool.and_eq_false_iff]
          right
          revert hp
          cases prefixB pat (lowerL (c :: rest)) <;> simp
      rw [removePhraseFuel, hguard]
      simp only [Bool.false_eq_true, if_false]
      exact congrArg (c :: ·) (ih rest (phraseFree_tail h))

theorem removePhrase_no_occur (pat l : List Char) (h : PhraseFreeCI pat l) :
    removePhrase pat l = l :=
  removePhraseFuel_no_occur pat l.length l h

theorem jsTrim_infix_self (l : List Char) : jsTrim l <:+: l :=
  ( List.IsPrefix.isInfix (jsTrimRight_isPre (jsTrimLeft l))).trans
    ( List.IsSuffix.isInfix (List.dropWhile_suffix _))

theorem collapseHTAux_head_true (l : List Char) (c : Char)
    (h : (collapseHTAux true l).head? = some c) : isHT c = false := by
  induction l with
  | nil => simp [collapseHTAux] at h
  | cons d rest ih =>
    by_cases hd : isHT d = true
    · rw [collapseHTAux, if_pos hd, if_pos rfl] at h
      exact ih h
    · rw [collapseHTAux, if_neg hd] at h
      simp only [List.head?_cons, Option.some.injEq] at h
      subst h
      revert hd
      cases isHT d <;> simp

theorem collapseHTAux_no_tab (b : Bool) (l : List Char) :
    ∀ c ∈ collapseHTAux b l, c ≠ '\t' := by
  induction l generalizing b with
  | nil => simp [collapseHTAux]
  | cons d rest ih =>
    intro c hc
    by_cases hd : isHT d = true
    · cases b with
      | true =>
        rw [collapseHTAux, if_pos hd, if_pos rfl] at hc
        exact ih true c hc
      | false =>
        rw [collapseHTAux, if_pos hd, if_neg (by simp)] at hc
        rcases List.mem_cons.mp hc with h | h
        · subst h
          decide
        · exact ih true c h
    · rw [collapseHTAux, if_neg hd] at hc
      rcases List.mem_cons.mp hc with h | h
      · subst h
        intro hEq
        subst hEq
        exact hd (by decide)
      · exact ih false c h

theorem collapseHTAux_chain (b : Bool) (l : List Char) :
    List.Chain' RnoDoubleSpace (collapseHTAux b l) := by
  induction l generalizing b with
  | nil => simp [collapseHTAux]
  | cons d rest ih =>
    by_cases hd : isHT d = true
    · cases b with
      | true =>
        rw [collapseHTAux, if_pos hd, if_pos rfl]
        exact ih true
      | false =>
        rw [collapseHTAux, if_pos hd, if_neg (by simp)]
        refine List.chain'_cons'.mpr ⟨fun y hy => ?_, ih true⟩
        have hns := collapseHTAux_head_true rest y hy
        intro hcontra
        rw [hcontra.2] at hns
        exact absurd hns (by decide)
    · rw [collapseHTAux, if_neg hd]
      refine List.chain'_cons'.mpr ⟨fun y hy => ?_, ih false⟩
      intro hcontra
      rw [hcontra.1] at hd
      exact hd (by decide)

theorem collapseHT_collapsed (l : List Char) : Collapsed (collapseHT l) :=
  ⟨collapseHTAux_no_tab false l, collapseHTAux_chain false l⟩

theorem collapsed_mono {l1 l2 : List Char} (hsub : l1 <:+: l2)
    (h : Collapsed l2) : Collapsed l1 :=
  ⟨fun c hc => h.1 c (hsub.subset hc), List.Chain'.infix h.2 hsub⟩

theorem collapseHTAux_eq_self :
    ∀ l : List Char, Collapsed l →
      collapseHTAux false l = l
      ∧ ((∀ c, l.head? = some c → isHT c = false) →
          collapseHTAux true l = l) := by
  intro l
  induction l with
  | nil => exact fun _ => ⟨rfl, fun _ => rfl⟩
  | cons c rest ih =>
    intro hcol
    have hcTab : c ≠ '\t' := hcol.1 c (List.mem_cons_self c rest)
    have hchain := List.chain'_cons'.mp hcol.2
    have hcolRest : Collapsed rest :=
      ⟨fun d hd => hcol.1 d (List.mem_cons_of_mem c hd), hchain.2⟩
    have ihRest := ih hcolRest
    constructor
    · by_cases hc : isHT c = true
      · have hcSpace : c = ' ' := by
          revert hc hcTab
          simp only [isHT, Bool.or_eq_true, decide_eq_true_eq]
          tauto
        rw [collapseHTAux, if_pos hc, if_neg (by simp)]
        have hrest : collapseHTAux true rest = rest := by
          refine ihRest.2 fun d hd => ?_
          have hR := hchain.1 d hd
          have hdTab : d ≠ '\t' := by
            rcases List.head?_eq_some_iff.mp hd with ⟨ys, hys⟩
            exact hcolRest.1 d (hys ▸ List.mem_cons_self d ys)
          rw [hcSpace] at hR
          have hdSpace : d ≠ ' ' := by
            intro hEq
            exact hR ⟨rfl, hEq⟩
          simp [isHT, hdSpace, hdTab]
        rw [hrest, hcSpace]
      · rw [collapseHTAux, if_neg hc]
        exact congrArg (c :: ·) ihRest.1
    · intro hhead
      have hc : isHT c = false := hhead c rfl
      rw [collapseHTAux, if_neg (by simp [hc])]
      exact congrArg (c :: ·) ihRest.1

theorem collapseHT_eq_self (l : List Char) (h : Collapsed l) :
    collapseHT l = l :=
  (collapseHTAux_eq_self l h).1

theorem mem_collapseHTAux (b : Bool) (l : List Char) (c : Char)
    (hc : c ∈ collapseHTAux b l) : c = ' ' ∨ c ∈ l := by
  induction l generalizing b with
  | nil => simp [collapseHTAux] at hc
  | cons d rest ih =>
    by_cases hd : isHT d = true
    · cases b with
      | true =>
        rw [collapseHTAux, if_pos hd, if_pos rfl] at hc
        rcases ih true hc with h | h
        · exact Or.inl h
        · exact Or.inr (List.mem_cons_of_mem d h)
      | false =>
        rw [collapseHTAux, if_pos hd, if_neg (by simp)] at hc
        rcases List.mem_cons.mp hc with h | h
        · exact Or.inl h
        · rcases ih true h with h2 | h2
          · exact Or.inl h2
          · exact Or.inr (List.mem_cons_of_mem d h2)
    · rw [collapseHTAux, if_neg hd] at hc
      rcases List.mem_cons.mp hc with h | h
      · subst h
        exact Or.inr (List.mem_cons_self c rest)
      · rcases ih false h with h2 | h2
        · exact Or.inl h2
        · exact Or.inr (List.mem_cons_of_mem d h2)

theorem replNbsp_not_mem (l : List Char) : nbspChar ∉ replNbsp l := by
  intro hmem
  rcases List.mem_map.mp hmem with ⟨c, _, hc⟩
  by_cases h : c = nbspChar
  · rw [if_pos h] at hc
    exact absurd hc (by decide)
  · rw [if_neg h] at hc
    exact h hc

theorem replNbsp_eq_self (l : List Char) (h : nbspChar ∉ l) :
    replNbsp l = l := by
  induction l with
  | nil => rfl
  | cons c rest ih =>
    have hc : c ≠ nbspChar := fun hEq => h (hEq ▸ List.mem_cons_self c rest)
    have hrest : nbspChar ∉ rest := fun hm => h (List.mem_cons_of_mem c hm)
    show (if c = nbspChar then ' ' else c) :: replNbsp rest = c :: rest
    rw [if_neg hc, ih hrest]

/-! ## Claim C3: the text normalizer is not idempotent in general -/

/-- C3, counterexample.  Removing the boilerplate phrase from
`"a skip to main content b"` joins the two surrounding single spaces into
a double space, which only a second `sanitize` pass collapses:
`sanitize` gives `"a  b"`, `sanitize ∘ sanitize` gives `"a b"`. -/
theorem C3_counterexample :
    sanitize (sanitize "a skip to main content b".toList)
      ≠ sanitize "a skip to main content b".toList := by
  decide

/-- C3, amended: `sanitize` is idempotent on every input in which neither
boilerplate phrase occurs (case-insensitively) after nbsp-replacement and
space/tab collapsing — i.e. whenever the phrase-stripping step is a no-op.
In general it is not idempotent: phrase removal can join two spaces into a
run (see the counterexample) or even create a new occurrence of a phrase,
and no later pass inside the same call re-collapses or re-strips. -/
theorem C3_sanitize_conditional_idem (x : List Char)
    (hEn : PhraseFreeCI skipEnPhrase (collapseHT (replNbsp x)))
    (hEs : PhraseFreeCI skipEsPhrase (collapseHT (replNbsp x))) :
    sanitize (sanitize x) = sanitize x := by
  have h1 : sanitize x = jsTrim (collapseHT (replNbsp x)) := by
    unfold sanitize
    rw [removePhrase_no_occur _ _ hEn, removePhrase_no_occur _ _ hEs]
  have hTsub : jsTrim (collapseHT (replNbsp x)) <:+: collapseHT (replNbsp x) :=
    jsTrim_infix_self _
  have hnb : nbspChar ∉ jsTrim (collapseHT (replNbsp x)) := by
    intro hmem
    rcases mem_collapseHTAux false (replNbsp x) nbspChar
      (hTsub.subset hmem) with h | h
    · exact absurd h (by decide)
    · exact replNbsp_not_mem x h
  have h2 : replNbsp (jsTrim (collapseHT (replNbsp x)))
      = jsTrim (collapseHT (replNbsp x)) := replNbsp_eq_self _ hnb
  have h3 : collapseHT (jsTrim (collapseHT (replNbsp x)))
      = jsTrim (collapseHT (replNbsp x)) :=
    collapseHT_eq_self _ (collapsed_mono hTsub (collapseHT_collapsed _))
  have h4 : removePhrase skipEnPhrase (jsTrim (collapseHT (replNbsp x)))
      = jsTrim (collapseHT (replNbsp x)) :=
    removePhrase_no_occur _ _ (phraseFree_mono hTsub hEn)
  have h5 : removePhrase skipEsPhrase (jsTrim (collapseHT (replNbsp x)))
      = jsTrim (collapseHT (replNbsp x)) :=
    removePhrase_no_occur _ _ (phraseFree_mono hTsub hEs)
  rw [h1]
  unfold sanitize
  rw [h2, h3, h4, h5, jsTrim_idem]

/-- C3, witness: a boilerplate-free input on which the amended idempotence
holds (with non-breaking space and a double space exercised). -/
theorem C3_sanitize_conditional_idem_witness :
    PhraseFreeCI skipEnPhrase
      (collapseHT (replNbsp "Estado:  Entregado hoy".toList))
    ∧ sanitize (sanitize "Estado:  Entregado hoy".toList)
      = sanitize "Estado:  Entregado hoy".toList :=
  ⟨by decide,
   C3_sanitize_conditional_idem "Estado:  Entregado hoy".toList
     (by decide) (by decide)⟩
